import Mathlib

/-!
Verification of the WampyTube stream-selection and encode-orchestration logic
(`src/wampytube.py`) against its natural-language specification.

The Python code is shallowly embedded: each relevant Python function becomes a
Lean definition of the same name, with external effects (pytubefix queries,
subprocess spawning, the filesystem) made explicit as arguments or result
components.
-/

namespace WampyTube

/-- A pytubefix `Stream` object, restricted to the attributes the program
reads: track membership, container subtype, resolution (the numeric value of
the `"NNNp"` string, absent for audio-only streams) and average bitrate
(the numeric value of the `"NNNkbps"` string, absent for video streams). -/
structure YTStream where
  itag : Nat
  includes_video_track : Bool
  includes_audio_track : Bool
  subtype : String
  resolution : Option Nat
  abr : Option Nat
deriving Repr, DecidableEq

/-- pytubefix `Stream.is_progressive`: the stream carries both tracks. -/
def YTStream.is_progressive (s : YTStream) : Bool :=
  s.includes_video_track && s.includes_audio_track

/-- pytubefix `Stream.is_adaptive`: negation of progressive. -/
def YTStream.is_adaptive (s : YTStream) : Bool :=
  !s.is_progressive

/-- The filter `streams.filter(progressive=True, file_extension="mp4")`. -/
def progressiveMp4 (s : YTStream) : Bool :=
  s.is_progressive && s.subtype == "mp4"

/-- The filter `streams.filter(adaptive=True, file_extension="mp4", only_video=True)`:
adaptive, mp4 container, video track only. -/
def adaptiveVideoMp4 (s : YTStream) : Bool :=
  s.is_adaptive && s.subtype == "mp4" && s.includes_video_track && !s.includes_audio_track

/-- The filter `streams.filter(only_audio=True, file_extension="mp4")`. -/
def audioOnlyMp4 (s : YTStream) : Bool :=
  s.includes_audio_track && !s.includes_video_track && s.subtype == "mp4"

/-- One step of pytubefix `order_by(attr).desc().first()`: scanning the list,
keep the element with the greatest attribute value, preferring the later one on
ties (a stable ascending sort followed by `desc` puts the last maximal element
first). -/
def pickStep (attr : YTStream → Option Nat) (acc : Option YTStream) (s : YTStream) :
    Option YTStream :=
  match acc with
  | none => some s
  | some b => if (attr b).getD 0 ≤ (attr s).getD 0 then some s else some b

/-- Fold `pickStep` over the list, starting from `best`. -/
def pickMax (attr : YTStream → Option Nat) (best : Option YTStream) (l : List YTStream) :
    Option YTStream :=
  l.foldl (pickStep attr) best

/-- pytubefix `query.order_by(attr).desc().first()`: drop streams whose
attribute is `None`, sort ascending by the numeric value, reverse, take the
head (`none` when nothing remains). -/
def orderByDescFirst (attr : YTStream → Option Nat) (l : List YTStream) : Option YTStream :=
  pickMax attr none (l.filter (fun s => (attr s).isSome))

/-- The triple `(video_stream, audio_stream, needs_merge)` returned by the
selection functions; `video = none` is the "no suitable stream" outcome that
makes `download_in_thread` raise. -/
structure Selection where
  video : Option YTStream
  audio : Option YTStream
  needs_merge : Bool
deriving Repr, DecidableEq

/-- Embedding of `WampyTubeApp.get_best_streams_fallback` (src/wampytube.py:995-1015):
filter progressive mp4 streams ordered by resolution descending; if empty
return the failure triple; if the best progressive resolution is below 1080
look for the best adaptive mp4 video-only stream and the best mp4 audio-only
stream and, when both exist, return them with `needs_merge = True`; otherwise
return the best progressive stream alone with `needs_merge = False`. -/
def get_best_streams_fallback (catalog : List YTStream) : Selection :=
  match orderByDescFirst (fun s => s.resolution) (catalog.filter progressiveMp4) with
  | none => ⟨none, none, false⟩
  | some best_progressive =>
    let progressive_resolution := best_progressive.resolution.getD 0
    if progressive_resolution < 1080 then
      match orderByDescFirst (fun s => s.resolution) (catalog.filter adaptiveVideoMp4),
            orderByDescFirst (fun s => s.abr) (catalog.filter audioOnlyMp4) with
      | some video_stream, some audio_stream => ⟨some video_stream, some audio_stream, true⟩
      | _, _ => ⟨some best_progressive, none, false⟩
    else ⟨some best_progressive, none, false⟩

/-- pytubefix `StreamQuery.get_highest_resolution()`:
`filter(progressive=True).order_by("resolution").desc().first()`. -/
def get_highest_resolution (catalog : List YTStream) : Option YTStream :=
  orderByDescFirst (fun s => s.resolution) (catalog.filter (fun s => s.is_progressive))

/-- One entry of `self.available_streams`, as built by
`populate_quality_options`: a type tag (`"progressive"` or `"adaptive"`)
and the stream object. -/
structure StreamInfo where
  type : String
  stream : YTStream
deriving Repr, DecidableEq

/-- The GUI state read by `get_selected_streams`: the two selector values and
the two maps built during URL analysis (`available_audio = none` models the
attribute not existing, the `hasattr` guard). -/
structure GuiState where
  selected_quality : String
  selected_audio : String
  available_streams : List (String × StreamInfo)
  available_audio : Option (List (String × YTStream))
deriving Repr, DecidableEq

/-- Embedding of `WampyTubeApp.get_selected_streams` (src/wampytube.py:961-988), the
non-exception path: choose the video stream from the user's quality selection
(falling back to `get_highest_resolution`), then, when a merge is needed or
"Best Available" is selected, choose the audio stream from the user's audio
selection (falling back to the best mp4 audio query) and force
`needs_merge = True`. -/
def get_selected_streams (st : GuiState) (catalog : List YTStream) : Selection :=
  let vm : Option YTStream × Bool :=
    match (st.available_streams.lookup st.selected_quality) with
    | some stream_info => (some stream_info.stream, stream_info.type == "adaptive")
    | none => (get_highest_resolution catalog, false)
  let video_stream := vm.1
  let needs_merge := vm.2
  if needs_merge || (st.selected_quality == "Best Available") then
    let audio_stream : Option YTStream :=
      match st.available_audio with
      | some m =>
        match m.lookup st.selected_audio with
        | some a => some a
        | none => orderByDescFirst (fun s => s.abr) (catalog.filter audioOnlyMp4)
      | none => orderByDescFirst (fun s => s.abr) (catalog.filter audioOnlyMp4)
    ⟨video_stream, audio_stream, true⟩
  else
    ⟨video_stream, none, false⟩

/-- Module constant `SYSTEM_THREADS = psutil.cpu_count(logical=True) or 8`
(src/wampytube.py:33): the probed logical-thread count, with `or 8` replacing
a falsy probe result (`None` or `0`). -/
def SYSTEM_THREADS (probe : Option Nat) : Nat :=
  match probe with
  | some n => if n == 0 then 8 else n
  | none => 8

/-- Module constant `CPU_THREADS = SYSTEM_THREADS - 1` (src/wampytube.py:35). -/
def CPU_THREADS (probe : Option Nat) : Nat :=
  SYSTEM_THREADS probe - 1

/-- The ffmpeg argument list built by `WampyTubeApp.merge_audio_video`
(src/wampytube.py:1029-1039): one hardware-HEVC invocation via
`hevc_videotoolbox`, fixed video bitrate 6M, AAC audio at 192k. -/
def ffmpegCommand (ffmpeg_path video_path audio_path output_path : String) : List String :=
  [ffmpeg_path, "-y",
   "-i", video_path,
   "-i", audio_path,
   "-c:v", "hevc_videotoolbox",
   "-b:v", "6M",
   "-c:a", "aac",
   "-b:a", "192k",
   output_path]

/-- Embedding of `WampyTubeApp.merge_audio_video` (src/wampytube.py:1026-1046) with the
subprocess made explicit: `spawn cmd = some code` is `subprocess.run`
returning exit status `code`, `spawn cmd = none` is the spawn raising (the
`except` branch). The result pairs the list of commands the function attempts
to run with the returned boolean (`returncode == 0`, and `False` on an
exception). -/
def merge_audio_video_run (spawn : List String → Option Int)
    (ffmpeg_path video_path audio_path output_path : String) :
    List (List String) × Bool :=
  let command := ffmpegCommand ffmpeg_path video_path audio_path output_path
  match spawn command with
  | some code => ([command], code == 0)
  | none => ([command], false)

/-- The boolean `merge_audio_video` returns to its caller. -/
def merge_audio_video (spawn : List String → Option Int)
    (ffmpeg_path video_path audio_path output_path : String) : Bool :=
  (merge_audio_video_run spawn ffmpeg_path video_path audio_path output_path).2

/-- The `needs_merge` branch of `WampyTubeApp.download_in_thread`
(src/wampytube.py:928-948) as a transformer on the set of files on disk:
download the `video_`-prefixed and `audio_`-prefixed temporary files, call
`merge_audio_video`; on success delete both temporary files (`os.remove`)
keeping the merged output, on failure raise, leaving both in place. Returns
the resulting disk contents and whether the branch succeeded. -/
def download_merge_branch (spawn : List String → Option Int)
    (ffmpeg_path : String) (disk : List String)
    (video_path audio_path final_path : String) : List String × Bool :=
  let disk1 := (disk.insert video_path).insert audio_path
  if merge_audio_video spawn ffmpeg_path video_path audio_path final_path then
    ((disk1.insert final_path).filter (fun f => f != video_path && f != audio_path), true)
  else
    (disk1, false)

/-- The capability record built by `check_macos_gpu`
(src/wampytube.py:49-91). -/
structure GpuInfo where
  available : Bool
  hevc_encoding : Bool
  model : String
  videotoolbox : Bool
deriving Repr, DecidableEq

/-- Python's substring test `pat in s`, for the non-empty literal patterns
`check_macos_gpu` uses. -/
def strContains (s pat : String) : Bool :=
  (s.splitOn pat).length > 1

/-- Embedding of `check_macos_gpu` (src/wampytube.py:49-91) with the
`system_profiler SPDisplaysDataType` subprocess made explicit:
`run_result = some (returncode, stdout)` is a completed subprocess,
`none` the exception path. The branch ladder classifies the GPU model from
substrings of the output; afterwards `videotoolbox` is set unconditionally and
`hevc_encoding` is set whenever `available` is. -/
def check_macos_gpu (run_result : Option (Int × String)) : GpuInfo :=
  match run_result with
  | none => ⟨false, false, "Unknown", false⟩
  | some (returncode, output) =>
    let gpu_info : GpuInfo := ⟨false, false, "Unknown", false⟩
    let gpu_info :=
      if returncode == 0 then
        if strContains output "AMD" || strContains output "Radeon" then
          { gpu_info with
              model := if strContains output "RX 6600" then "AMD RX 6600"
                       else if strContains output "Radeon" then "AMD Radeon"
                       else "AMD GPU",
              available := true }
        else if strContains output "Intel" then
          { gpu_info with model := "Intel GPU", available := true }
        else if strContains output "Apple" || strContains output "M1" ||
                strContains output "M2" || strContains output "M3" then
          { gpu_info with
              model := if strContains output "M1" then "Apple M1"
                       else if strContains output "M2" then "Apple M2"
                       else if strContains output "M3" then "Apple M3"
                       else "Apple Silicon",
              available := true,
              hevc_encoding := true }
        else gpu_info
      else gpu_info
    let gpu_info := { gpu_info with videotoolbox := true }
    if gpu_info.available then { gpu_info with hevc_encoding := true } else gpu_info

/-- Embedding of `WampyTubeApp.format_duration` (src/wampytube.py:862-876): `none` models
`seconds=None`; `if not seconds` sends both `None` and `0` to `"Unknown"`;
otherwise the duration is split into hours, minutes and seconds and rendered
with only the leading nonzero units. -/
def format_duration (seconds : Option Nat) : String :=
  match seconds with
  | none => "Unknown"
  | some s =>
    if s == 0 then "Unknown"
    else
      let hours := s / 3600
      let minutes := (s % 3600) / 60
      let secs := s % 60
      if hours > 0 then
        toString hours ++ "h " ++ toString minutes ++ "m " ++ toString secs ++ "s"
      else if minutes > 0 then
        toString minutes ++ "m " ++ toString secs ++ "s"
      else
        toString secs ++ "s"

/-! ### Lemmas about the `order_by(..).desc().first()` embedding -/

theorem pickStep_isSome (attr : YTStream → Option Nat) (acc : Option YTStream) (s : YTStream) :
    (pickStep attr acc s).isSome := by
  cases acc with
  | none => rfl
  | some b =>
    simp only [pickStep]
    split <;> rfl

theorem pickMax_cons (attr : YTStream → Option Nat) (best : Option YTStream)
    (x : YTStream) (xs : List YTStream) :
    pickMax attr best (x :: xs) = pickMax attr (pickStep attr best x) xs := rfl

theorem pickMax_eq_none_iff (attr : YTStream → Option Nat) (l : List YTStream) :
    ∀ best, pickMax attr best l = none ↔ best = none ∧ l = [] := by
  induction l with
  | nil => intro best; simp [pickMax]
  | cons x xs ih =>
    intro best
    rw [pickMax_cons, ih]
    constructor
    · rintro ⟨h1, -⟩
      have h2 := pickStep_isSome attr best x
      rw [h1] at h2
      cases h2
    · rintro ⟨-, h⟩
      cases h

theorem pickMax_mem (attr : YTStream → Option Nat) (l : List YTStream) :
    ∀ (best : Option YTStream) (s : YTStream),
      pickMax attr best l = some s → s ∈ l ∨ best = some s := by
  induction l with
  | nil => intro best s h; exact Or.inr h
  | cons x xs ih =>
    intro best s h
    rw [pickMax_cons] at h
    rcases ih (pickStep attr best x) s h with hmem | hstep
    · exact Or.inl (List.mem_cons_of_mem x hmem)
    · cases best with
      | none =>
        simp only [pickStep] at hstep
        exact Or.inl (Option.some.inj hstep ▸ List.mem_cons_self x xs)
      | some b =>
        simp only [pickStep] at hstep
        split at hstep
        · exact Or.inl (Option.some.inj hstep ▸ List.mem_cons_self x xs)
        · exact Or.inr hstep

theorem pickMax_ge (attr : YTStream → Option Nat) (l : List YTStream) :
    ∀ (best : Option YTStream) (s : YTStream),
      pickMax attr best l = some s →
      (∀ t ∈ l, (attr t).getD 0 ≤ (attr s).getD 0) ∧
      (∀ b, best = some b → (attr b).getD 0 ≤ (attr s).getD 0) := by
  induction l with
  | nil =>
    intro best s h
    refine ⟨fun t ht => absurd ht (List.not_mem_nil t), fun b hb => ?_⟩
    rw [hb] at h
    cases h
    exact le_refl _
  | cons x xs ih =>
    intro best s h
    rw [pickMax_cons] at h
    have IH := ih (pickStep attr best x) s h
    have hstep : ∀ c, pickStep attr best x = some c →
        (attr x).getD 0 ≤ (attr c).getD 0 ∧
        (∀ b, best = some b → (attr b).getD 0 ≤ (attr c).getD 0) := by
      intro c hc
      cases best with
      | none =>
        simp only [pickStep] at hc
        cases hc
        exact ⟨le_refl _, fun b hb => by cases hb⟩
      | some b =>
        simp only [pickStep] at hc
        split at hc
        · cases hc
          refine ⟨le_refl _, fun b' hb' => ?_⟩
          cases hb'
          assumption
        · cases hc
          refine ⟨le_of_not_le (by assumption), fun b' hb' => ?_⟩
          cases hb'
          exact le_refl _
    obtain ⟨c, hc⟩ := Option.isSome_iff_exists.mp (pickStep_isSome attr best x)
    have hc_le : (attr c).getD 0 ≤ (attr s).getD 0 := IH.2 c hc
    refine ⟨fun t ht => ?_, fun b hb => ?_⟩
    · rcases List.mem_cons.mp ht with rfl | ht'
      · exact le_trans (hstep c hc).1 hc_le
      · exact IH.1 t ht'
    · exact le_trans ((hstep c hc).2 b hb) hc_le

theorem orderByDescFirst_mem (attr : YTStream → Option Nat) (l : List YTStream) (s : YTStream)
    (h : orderByDescFirst attr l = some s) : s ∈ l ∧ (attr s).isSome := by
  rcases pickMax_mem attr _ none s h with hmem | hbest
  · have := List.mem_filter.mp hmem
    exact ⟨this.1, by simpa using this.2⟩
  · cases hbest

theorem orderByDescFirst_ge (attr : YTStream → Option Nat) (l : List YTStream) (s : YTStream)
    (h : orderByDescFirst attr l = some s) :
    ∀ t ∈ l, (attr t).getD 0 ≤ (attr s).getD 0 := by
  intro t ht
  by_cases hs : (attr t).isSome
  · exact (pickMax_ge attr _ none s h).1 t (List.mem_filter.mpr ⟨ht, by simpa using hs⟩)
  · rw [Option.not_isSome_iff_eq_none.mp hs]
    exact Nat.zero_le _

theorem orderByDescFirst_eq_none_iff (attr : YTStream → Option Nat) (l : List YTStream) :
    orderByDescFirst attr l = none ↔ l.filter (fun s => (attr s).isSome) = [] := by
  unfold orderByDescFirst
  rw [pickMax_eq_none_iff]
  simp

theorem orderByDescFirst_isSome_of_mem (attr : YTStream → Option Nat) (l : List YTStream)
    (t : YTStream) (ht : t ∈ l) (hattr : (attr t).isSome) :
    (orderByDescFirst attr l).isSome := by
  rcases h : orderByDescFirst attr l with - | s
  · rw [orderByDescFirst_eq_none_iff] at h
    have : t ∈ l.filter (fun s => (attr s).isSome) :=
      List.mem_filter.mpr ⟨ht, by simpa using hattr⟩
    rw [h] at this
    cases this
  · rfl

/-! ### Concrete stream fixtures -/

/-- A 2160p progressive WebM stream. -/
def progWebm2160 : YTStream := ⟨11, true, true, "webm", some 2160, none⟩

/-- A 720p progressive WebM stream. -/
def progWebm720 : YTStream := ⟨12, true, true, "webm", some 720, none⟩

/-- A 720p progressive MP4 stream. -/
def progMp4_720 : YTStream := ⟨13, true, true, "mp4", some 720, none⟩

/-- A 1080p progressive MP4 stream. -/
def progMp4_1080 : YTStream := ⟨14, true, true, "mp4", some 1080, none⟩

/-- A 2160p adaptive (video-only) WebM stream. -/
def adaptWebm2160 : YTStream := ⟨15, true, false, "webm", some 2160, none⟩

/-- A 2160p adaptive (video-only) MP4 stream. -/
def adaptMp4_2160 : YTStream := ⟨16, true, false, "mp4", some 2160, none⟩

/-- A 128kbps audio-only WebM stream. -/
def audioWebm128 : YTStream := ⟨17, false, true, "webm", none, some 128⟩

/-- A 128kbps audio-only MP4 stream. -/
def audioMp4_128 : YTStream := ⟨18, false, true, "mp4", none, some 128⟩

/-- Unfolding `get_best_streams_fallback` when the progressive-MP4 query is
empty. -/
theorem get_best_streams_fallback_eq_none (catalog : List YTStream)
    (h : orderByDescFirst (fun s => s.resolution) (catalog.filter progressiveMp4) = none) :
    get_best_streams_fallback catalog = ⟨none, none, false⟩ := by
  unfold get_best_streams_fallback
  rw [h]

/-- Unfolding `get_best_streams_fallback` when the progressive-MP4 query
returns a best stream `bp`. -/
theorem get_best_streams_fallback_eq_some (catalog : List YTStream) (bp : YTStream)
    (h : orderByDescFirst (fun s => s.resolution) (catalog.filter progressiveMp4) = some bp) :
    get_best_streams_fallback catalog =
      (if bp.resolution.getD 0 < 1080 then
        match orderByDescFirst (fun s => s.resolution) (catalog.filter adaptiveVideoMp4),
              orderByDescFirst (fun s => s.abr) (catalog.filter audioOnlyMp4) with
        | some video_stream, some audio_stream => ⟨some video_stream, some audio_stream, true⟩
        | _, _ => ⟨some bp, none, false⟩
      else ⟨some bp, none, false⟩) := by
  unfold get_best_streams_fallback
  rw [h]

/-- A successful assoc-list lookup comes from some pair stored in the list. -/
theorem lookup_exists_pair {β : Type} (l : List (String × β)) (k : String) (v : β)
    (h : l.lookup k = some v) : ∃ k', (k', v) ∈ l := by
  induction l with
  | nil => cases h
  | cons x xs ih =>
    rcases x with ⟨a, b⟩
    simp only [List.lookup] at h
    split at h
    · cases h
      exact ⟨a, List.mem_cons_self _ _⟩
    · obtain ⟨k', hk⟩ := ih h
      exact ⟨k', List.mem_cons_of_mem _ hk⟩

/-! ### Claim theorems -/

/-- C1 (counterexample): in an environment where the hardware-HEVC stage
fails, the software-HEVC stage would fail and the software-H.264 stage would
succeed (the stage-outcome catalog [fail, fail, success], encoded by exit
status per codec argument), `merge_audio_video` attempts exactly ONE encoder
subprocess — the hardware-HEVC one — and reports failure, contradicting the
claimed three-stage fallback chain that reports success after the third
stage. -/
theorem C1_counterexample :
    (merge_audio_video_run
        (fun cmd =>
          if cmd.contains "hevc_videotoolbox" then some 1
          else if cmd.contains "libx265" then some 1
          else if cmd.contains "libx264" then some 0
          else some 1)
        "ffmpeg" "video_x.mp4" "audio_x.mp4" "x_HEVC.mp4").1.length = 1 ∧
    (merge_audio_video_run
        (fun cmd =>
          if cmd.contains "hevc_videotoolbox" then some 1
          else if cmd.contains "libx265" then some 1
          else if cmd.contains "libx264" then some 0
          else some 1)
        "ffmpeg" "video_x.mp4" "audio_x.mp4" "x_HEVC.mp4").2 = false := by
  constructor <;> rfl

/-- C1 (amended): `merge_audio_video` is a single-stage orchestrator: for
every subprocess environment and every input pair it attempts exactly one
encoder command — the hardware-HEVC (`hevc_videotoolbox`) one — and reports
success exactly when that single invocation exits with status 0; there is no
software-HEVC or software-H.264 fallback stage. -/
theorem C1_single_hardware_stage (spawn : List String → Option Int)
    (p v a o : String) :
    (merge_audio_video_run spawn p v a o).1 = [ffmpegCommand p v a o] ∧
    "hevc_videotoolbox" ∈ ffmpegCommand p v a o ∧
    ((merge_audio_video_run spawn p v a o).2 = true ↔
      spawn (ffmpegCommand p v a o) = some 0) := by
  simp only [merge_audio_video_run]
  rcases h : spawn (ffmpegCommand p v a o) with - | code <;>
    simp [ffmpegCommand]

/-- C7 (confirmed): `merge_audio_video` declares success (returns true) iff
the spawned encoder process exits with status 0; a non-zero exit status or a
failure to spawn (`spawn = none`, the exception path) yields `False` rather
than a propagated exception. -/
theorem C7_success_iff_exit_zero (spawn : List String → Option Int)
    (p v a o : String) :
    (merge_audio_video spawn p v a o = true ↔
      spawn (ffmpegCommand p v a o) = some 0) ∧
    merge_audio_video (fun _ => none) p v a o = false := by
  constructor
  · simp only [merge_audio_video, merge_audio_video_run]
    rcases h : spawn (ffmpegCommand p v a o) with - | code <;> simp
  · rfl

/-- C6 (confirmed): in the merge branch of `download_in_thread`, if the merge
succeeds both temporary files (the `video_`-prefixed and `audio_`-prefixed
downloads) are deleted from disk, and if the merge fails both remain on
disk. -/
theorem C6_temp_file_cleanup (spawn : List String → Option Int)
    (ffmpeg_path : String) (disk : List String) (vp ap fp : String) :
    ((download_merge_branch spawn ffmpeg_path disk vp ap fp).2 = true →
      vp ∉ (download_merge_branch spawn ffmpeg_path disk vp ap fp).1 ∧
      ap ∉ (download_merge_branch spawn ffmpeg_path disk vp ap fp).1) ∧
    ((download_merge_branch spawn ffmpeg_path disk vp ap fp).2 = false →
      vp ∈ (download_merge_branch spawn ffmpeg_path disk vp ap fp).1 ∧
      ap ∈ (download_merge_branch spawn ffmpeg_path disk vp ap fp).1) := by
  cases hm : merge_audio_video spawn ffmpeg_path vp ap fp with
  | true =>
    have hr : download_merge_branch spawn ffmpeg_path disk vp ap fp =
        ((((disk.insert vp).insert ap).insert fp).filter
          (fun f => f != vp && f != ap), true) := by
      unfold download_merge_branch
      rw [hm]
      simp
    rw [hr]
    constructor
    · intro _
      constructor
      · intro hmem
        have hcond := (List.mem_filter.mp hmem).2
        simp at hcond
      · intro hmem
        have hcond := (List.mem_filter.mp hmem).2
        simp at hcond
    · intro h
      cases h
  | false =>
    have hr : download_merge_branch spawn ffmpeg_path disk vp ap fp =
        ((disk.insert vp).insert ap, false) := by
      unfold download_merge_branch
      rw [hm]
      simp
    rw [hr]
    constructor
    · intro h
      cases h
    · intro _
      constructor <;> simp [List.mem_insert_iff]

/-- C6 (witness): concrete run of the merge branch in an environment where
the encoder exits 0: both temporary files are gone afterwards. -/
theorem C6_witness :
    "video_x.mp4" ∉
      (download_merge_branch (fun _ => some 0) "ffmpeg" [] "video_x.mp4"
        "audio_x.mp4" "x_HEVC.mp4").1 ∧
    "audio_x.mp4" ∉
      (download_merge_branch (fun _ => some 0) "ffmpeg" [] "video_x.mp4"
        "audio_x.mp4" "x_HEVC.mp4").1 :=
  (C6_temp_file_cleanup (fun _ => some 0) "ffmpeg" [] "video_x.mp4"
    "audio_x.mp4" "x_HEVC.mp4").1 rfl

/-- C8 (counterexample): on a machine with 8 logical threads,
`CPU_THREADS = 7`, yet the encoder argument list for a concrete invocation
contains neither a `-threads` flag nor the value `"7"`: no thread count is
passed to the encoder. -/
theorem C8_counterexample :
    CPU_THREADS (some 8) = 7 ∧
    "-threads" ∉ ffmpegCommand "ffmpeg" "video_x.mp4" "audio_x.mp4" "x_HEVC.mp4" ∧
    "7" ∉ ffmpegCommand "ffmpeg" "video_x.mp4" "audio_x.mp4" "x_HEVC.mp4" := by
  refine ⟨rfl, ?_, ?_⟩ <;> decide

/-- C8 (amended): the module computes `CPU_THREADS` as the logical-thread
count minus one, but the encoder argument list built by `merge_audio_video`
never contains a `-threads` flag (whenever none of the caller-supplied paths
is itself the literal string `"-threads"`): the thread count is unused by the
encoder invocation. -/
theorem C8_no_threads_argument (probe : Option Nat) (p v a o : String)
    (hp : p ≠ "-threads") (hv : v ≠ "-threads") (ha : a ≠ "-threads")
    (ho : o ≠ "-threads") :
    CPU_THREADS probe = SYSTEM_THREADS probe - 1 ∧
    "-threads" ∉ ffmpegCommand p v a o := by
  refine ⟨rfl, ?_⟩
  intro hmem
  simp only [ffmpegCommand, List.mem_cons, List.not_mem_nil, or_false] at hmem
  rcases hmem with h | h | h | h | h | h | h | h | h | h | h | h | h | h | h
  · exact hp h.symm
  · exact absurd h (by decide)
  · exact absurd h (by decide)
  · exact hv h.symm
  · exact absurd h (by decide)
  · exact ha h.symm
  · exact absurd h (by decide)
  · exact absurd h (by decide)
  · exact absurd h (by decide)
  · exact absurd h (by decide)
  · exact absurd h (by decide)
  · exact absurd h (by decide)
  · exact absurd h (by decide)
  · exact absurd h (by decide)
  · exact ho h.symm

/-- C8 (witness): the amended statement at a concrete probe and concrete
paths. -/
theorem C8_witness :
    CPU_THREADS (some 8) = SYSTEM_THREADS (some 8) - 1 ∧
    "-threads" ∉ ffmpegCommand "ffmpeg" "video_x.mp4" "audio_x.mp4" "x_HEVC.mp4" :=
  C8_no_threads_argument (some 8) "ffmpeg" "video_x.mp4" "audio_x.mp4"
    "x_HEVC.mp4" (by decide) (by decide) (by decide) (by decide)

/-- C9 (confirmed): on every execution path of the GPU probe — both with a
completed `system_profiler` run (any exit code, any output, covering the AMD,
Intel, Apple and no-GPU branches) and on the exception path — the returned
record satisfies `hevc_encoding = available`. -/
theorem C9_hevc_iff_available (run_result : Option (Int × String)) :
    (check_macos_gpu run_result).hevc_encoding =
      (check_macos_gpu run_result).available := by
  rcases run_result with - | ⟨rc, out⟩
  · rfl
  · simp only [check_macos_gpu]
    repeat' split
    all_goals simp_all

/-- C10 (confirmed): `format_duration` returns `"Unknown"` for `None` and for
0 seconds (rather than `"0s"`), and the seconds-only form `"<s>s"` for every
positive input below 60. -/
theorem C10_format_duration_small (s : Nat) (h1 : 0 < s) (h2 : s < 60) :
    format_duration none = "Unknown" ∧
    format_duration (some 0) = "Unknown" ∧
    format_duration (some s) = toString s ++ "s" := by
  refine ⟨rfl, rfl, ?_⟩
  have hne : s ≠ 0 := Nat.pos_iff_ne_zero.mp h1
  have h3600 : s / 3600 = 0 := Nat.div_eq_of_lt (by omega)
  have hmod : s % 3600 = s := Nat.mod_eq_of_lt (by omega)
  have h60 : s % 3600 / 60 = 0 := by rw [hmod]; exact Nat.div_eq_of_lt h2
  have hm60 : s % 60 = s := Nat.mod_eq_of_lt h2
  simp [format_duration, hne, h3600, h60, hm60]

/-- C10 (witness): the seconds-only form at 59 seconds. -/
theorem C10_witness :
    0 < 59 ∧ 59 < 60 ∧ format_duration (some 59) = toString 59 ++ "s" :=
  ⟨by decide, by decide,
    (C10_format_duration_small 59 (by decide) (by decide)).2.2⟩

/-- C2 (counterexample): the catalog consisting of a single 2160p progressive
WebM stream contains a progressive stream at or above the 1080p threshold, yet
the fallback Selector returns no stream at all (`video = none`, the "No
suitable stream found" failure), because its progressive filter is restricted
to the MP4 container. -/
theorem C2_counterexample :
    progWebm2160.is_progressive = true ∧
    1080 ≤ progWebm2160.resolution.getD 0 ∧
    (get_best_streams_fallback [progWebm2160]).video = none := by decide

/-- C2 (amended): for every catalog containing a progressive MP4 stream with a
resolution at or above 1080p, the fallback Selector returns a progressive MP4
stream of maximal resolution among the catalog's progressive MP4 streams, with
no audio stream and `needs_merge = false`. -/
theorem C2_best_progressive_mp4 (catalog : List YTStream) (s : YTStream)
    (hs : s ∈ catalog) (hp : progressiveMp4 s = true)
    (hr : 1080 ≤ s.resolution.getD 0) :
    ∃ v, (get_best_streams_fallback catalog).video = some v ∧
      (get_best_streams_fallback catalog).audio = none ∧
      (get_best_streams_fallback catalog).needs_merge = false ∧
      progressiveMp4 v = true ∧
      ∀ t ∈ catalog, progressiveMp4 t = true →
        t.resolution.getD 0 ≤ v.resolution.getD 0 := by
  have hsome : s.resolution.isSome := by
    rcases h : s.resolution with - | r
    · rw [h] at hr
      simp at hr
    · rfl
  have hmemf : s ∈ catalog.filter progressiveMp4 := List.mem_filter.mpr ⟨hs, hp⟩
  obtain ⟨bp, hbp⟩ := Option.isSome_iff_exists.mp
    (orderByDescFirst_isSome_of_mem (fun s => s.resolution) _ s hmemf hsome)
  have hge := orderByDescFirst_ge (fun s => s.resolution) _ bp hbp
  have hnotlt : ¬ (bp.resolution.getD 0 < 1080) :=
    not_lt.mpr (le_trans hr (hge s hmemf))
  have hsel : get_best_streams_fallback catalog = ⟨some bp, none, false⟩ := by
    unfold get_best_streams_fallback
    rw [hbp]
    simp [hnotlt]
  rw [hsel]
  refine ⟨bp, rfl, rfl, rfl, ?_, ?_⟩
  · exact (List.mem_filter.mp (orderByDescFirst_mem _ _ bp hbp).1).2
  · intro t ht hpt
    exact hge t (List.mem_filter.mpr ⟨ht, hpt⟩)

/-- C2 (witness): the amended statement at the one-stream catalog holding a
1080p progressive MP4 stream. -/
theorem C2_witness :
    ∃ v, (get_best_streams_fallback [progMp4_1080]).video = some v ∧
      (get_best_streams_fallback [progMp4_1080]).audio = none ∧
      (get_best_streams_fallback [progMp4_1080]).needs_merge = false ∧
      progressiveMp4 v = true ∧
      ∀ t ∈ [progMp4_1080], progressiveMp4 t = true →
        t.resolution.getD 0 ≤ v.resolution.getD 0 :=
  C2_best_progressive_mp4 [progMp4_1080] progMp4_1080 (by decide) (by decide)
    (by decide)

/-- C3 (counterexample): a catalog whose only progressive stream is a 720p
WebM stream (so the best progressive stream is below the 1080p threshold) and
which contains a 2160p adaptive video-only stream and a 128kbps audio-only
stream — but in the WebM container. The fallback Selector does not return the
adaptive pair with `needs_merge = true`; it returns no stream at all. -/
theorem C3_counterexample :
    (∀ t ∈ [progWebm720, adaptWebm2160, audioWebm128],
      t.is_progressive = true → t.resolution.getD 0 < 1080) ∧
    progWebm720.is_progressive = true ∧
    adaptWebm2160.is_adaptive = true ∧ adaptWebm2160.includes_video_track = true ∧
    adaptWebm2160.includes_audio_track = false ∧
    audioWebm128.includes_audio_track = true ∧
    audioWebm128.includes_video_track = false ∧
    get_best_streams_fallback [progWebm720, adaptWebm2160, audioWebm128] =
      ⟨none, none, false⟩ := by decide

/-- C3 (amended): for every catalog that contains a progressive MP4 stream
(with a resolution), all of whose progressive MP4 streams are below the 1080p
threshold, and which contains an adaptive MP4 video-only stream with a
resolution and an MP4 audio-only stream with a bitrate, the fallback Selector
returns an adaptive MP4 video stream of maximal resolution together with an
MP4 audio stream of maximal bitrate and `needs_merge = true`. -/
theorem C3_adaptive_pair_below_threshold (catalog : List YTStream)
    (hprog : ∃ p, p ∈ catalog ∧ progressiveMp4 p = true ∧ p.resolution.isSome = true)
    (hbelow : ∀ p ∈ catalog, progressiveMp4 p = true → p.resolution.getD 0 < 1080)
    (hvid : ∃ t, t ∈ catalog ∧ adaptiveVideoMp4 t = true ∧ t.resolution.isSome = true)
    (haud : ∃ t, t ∈ catalog ∧ audioOnlyMp4 t = true ∧ t.abr.isSome = true) :
    ∃ v a, get_best_streams_fallback catalog = ⟨some v, some a, true⟩ ∧
      adaptiveVideoMp4 v = true ∧ audioOnlyMp4 a = true ∧
      (∀ t ∈ catalog, adaptiveVideoMp4 t = true →
        t.resolution.getD 0 ≤ v.resolution.getD 0) ∧
      (∀ t ∈ catalog, audioOnlyMp4 t = true → t.abr.getD 0 ≤ a.abr.getD 0) := by
  obtain ⟨p, hpmem, hpp, hpsome⟩ := hprog
  obtain ⟨bp, hbp⟩ := Option.isSome_iff_exists.mp
    (orderByDescFirst_isSome_of_mem (fun s => s.resolution) _ p
      (List.mem_filter.mpr ⟨hpmem, hpp⟩) hpsome)
  obtain ⟨tv, htvmem, htvp, htvsome⟩ := hvid
  obtain ⟨v, hv⟩ := Option.isSome_iff_exists.mp
    (orderByDescFirst_isSome_of_mem (fun s => s.resolution) _ tv
      (List.mem_filter.mpr ⟨htvmem, htvp⟩) htvsome)
  obtain ⟨ta, htamem, htap, htasome⟩ := haud
  obtain ⟨a, ha⟩ := Option.isSome_iff_exists.mp
    (orderByDescFirst_isSome_of_mem (fun s => s.abr) _ ta
      (List.mem_filter.mpr ⟨htamem, htap⟩) htasome)
  have hbplt : bp.resolution.getD 0 < 1080 := by
    have hmem := List.mem_filter.mp (orderByDescFirst_mem (fun s => s.resolution) _ bp hbp).1
    exact hbelow bp hmem.1 hmem.2
  refine ⟨v, a, ?_, ?_, ?_, ?_, ?_⟩
  · unfold get_best_streams_fallback
    rw [hbp]
    simp only [hbplt, if_true, ite_true]
    rw [hv, ha]
  · exact (List.mem_filter.mp (orderByDescFirst_mem _ _ v hv).1).2
  · exact (List.mem_filter.mp (orderByDescFirst_mem _ _ a ha).1).2
  · intro t ht hpt
    exact orderByDescFirst_ge (fun s => s.resolution) _ v hv t
      (List.mem_filter.mpr ⟨ht, hpt⟩)
  · intro t ht hpt
    exact orderByDescFirst_ge (fun s => s.abr) _ a ha t
      (List.mem_filter.mpr ⟨ht, hpt⟩)

/-- C3 (witness): the amended statement at the catalog
[720p progressive MP4, 2160p adaptive MP4, 128kbps MP4 audio]. -/
theorem C3_witness :
    ∃ v a, get_best_streams_fallback [progMp4_720, adaptMp4_2160, audioMp4_128] =
        ⟨some v, some a, true⟩ ∧
      adaptiveVideoMp4 v = true ∧ audioOnlyMp4 a = true ∧
      (∀ t ∈ [progMp4_720, adaptMp4_2160, audioMp4_128], adaptiveVideoMp4 t = true →
        t.resolution.getD 0 ≤ v.resolution.getD 0) ∧
      (∀ t ∈ [progMp4_720, adaptMp4_2160, audioMp4_128], audioOnlyMp4 t = true →
        t.abr.getD 0 ≤ a.abr.getD 0) :=
  C3_adaptive_pair_below_threshold [progMp4_720, adaptMp4_2160, audioMp4_128]
    ⟨progMp4_720, by decide⟩ (by decide) ⟨adaptMp4_2160, by decide⟩
    ⟨audioMp4_128, by decide⟩

/-- C4 (counterexample): the two-stream catalog [2160p adaptive MP4 video,
128kbps MP4 audio] is non-empty, contains no progressive stream but does
contain a stream matching the adaptive-video filter and a stream matching the
audio filter — yet the fallback Selector still fails (`video = none`, raising
"No suitable stream found"), contradicting the claim that it does not fail on
such catalogs. -/
theorem C4_counterexample :
    ([adaptMp4_2160, audioMp4_128] ≠ ([] : List YTStream)) ∧
    (∀ t ∈ [adaptMp4_2160, audioMp4_128], t.is_progressive = false) ∧
    adaptiveVideoMp4 adaptMp4_2160 = true ∧
    audioOnlyMp4 audioMp4_128 = true ∧
    (get_best_streams_fallback [adaptMp4_2160, audioMp4_128]).video = none := by
  decide

/-- C4 (amended): the fallback Selector fails on the empty catalog, and in
general it fails exactly when the catalog contains no progressive MP4 stream
with a resolution — even when adaptive video and audio streams are
available. -/
theorem C4_fail_iff_no_progressive_mp4 (catalog : List YTStream) :
    (get_best_streams_fallback ([] : List YTStream)).video = none ∧
    ((get_best_streams_fallback catalog).video = none ↔
      (catalog.filter progressiveMp4).filter (fun s => s.resolution.isSome) = []) := by
  refine ⟨rfl, ?_⟩
  rcases h : orderByDescFirst (fun s => s.resolution) (catalog.filter progressiveMp4)
    with - | bp
  · have hempty := (orderByDescFirst_eq_none_iff _ _).mp h
    constructor
    · intro _
      exact hempty
    · intro _
      unfold get_best_streams_fallback
      rw [h]
  · have hne : (catalog.filter progressiveMp4).filter
        (fun s => s.resolution.isSome) ≠ [] := by
      intro hempty
      rw [← orderByDescFirst_eq_none_iff] at hempty
      rw [h] at hempty
      cases hempty
    constructor
    · intro hv
      exfalso
      rw [get_best_streams_fallback_eq_some catalog bp h] at hv
      split at hv
      · split at hv <;> simp at hv
      · simp at hv
    · intro hempty
      exact absurd hempty hne

/-- The GUI state of the C5 counterexample: the user has picked the 2160p
adaptive quality entry; the audio map exists but is empty and the selected
audio label is not in it. -/
def c5State : GuiState :=
  ⟨"2160p (Best Quality)", "English (128kbps)",
   [("2160p (Best Quality)", ⟨"adaptive", adaptMp4_2160⟩)], some []⟩

/-- C5 (counterexample): in the user-selection path, with an adaptive quality
selected and a catalog containing no MP4 audio stream, the produced
SelectionResult has `needs_merge = true` with a video stream present but NO
audio stream — violating the claimed invariant that `needs_merge` is true iff
an audio stream is present. -/
theorem C5_counterexample :
    (get_selected_streams c5State [adaptMp4_2160]).needs_merge = true ∧
    (get_selected_streams c5State [adaptMp4_2160]).video = some adaptMp4_2160 ∧
    (get_selected_streams c5State [adaptMp4_2160]).audio = none := by decide

/-- C5 (amended): for every SelectionResult produced by either selection path,
if an audio stream is present then `needs_merge` is true, and if `needs_merge`
is false then no audio stream is present and the video stream (when present)
is progressive; on the fallback path the full iff (`needs_merge` true iff
audio present) additionally holds. The user-selection direction
"`needs_merge = true` implies audio present" does NOT hold (see the
counterexample). The hypothesis records the shape of `available_streams` as
built by `populate_quality_options`: every entry is tagged `"adaptive"` or
holds a progressive stream. -/
theorem C5_selection_invariant (st : GuiState) (catalog : List YTStream)
    (hwf : ∀ p ∈ st.available_streams,
      p.2.type = "adaptive" ∨ p.2.stream.is_progressive = true) :
    ((get_selected_streams st catalog).audio.isSome = true →
      (get_selected_streams st catalog).needs_merge = true) ∧
    ((get_selected_streams st catalog).needs_merge = false →
      (get_selected_streams st catalog).audio = none ∧
      ∀ v, (get_selected_streams st catalog).video = some v →
        v.is_progressive = true) ∧
    ((get_best_streams_fallback catalog).needs_merge = true ↔
      (get_best_streams_fallback catalog).audio.isSome = true) ∧
    ((get_best_streams_fallback catalog).needs_merge = false →
      (get_best_streams_fallback catalog).audio = none ∧
      ∀ v, (get_best_streams_fallback catalog).video = some v →
        v.is_progressive = true) := by
  refine ⟨?_, ?_, ?_, ?_⟩
  · simp only [get_selected_streams]
    split
    · intro _
      rfl
    · intro h
      simp at h
  · simp only [get_selected_streams]
    split
    · intro h
      cases h
    · rename_i hcond
      intro _
      refine ⟨rfl, ?_⟩
      intro v hv
      rcases hl : st.available_streams.lookup st.selected_quality with - | info
      · rw [hl] at hv
        have hv' : get_highest_resolution catalog = some v := hv
        have hmem := (orderByDescFirst_mem (fun s => s.resolution) _ v hv').1
        exact (List.mem_filter.mp hmem).2
      · rw [hl] at hv hcond
        have hv' : some info.stream = some v := hv
        cases hv'
        obtain ⟨k', hk⟩ := lookup_exists_pair _ _ _ hl
        rcases hwf (k', info) hk with htype | hprog
        · exfalso
          apply hcond
          have htype' : info.type = "adaptive" := htype
          show ((info.type == "adaptive") || (st.selected_quality == "Best Available")) = true
          simp [htype']
        · exact hprog
  · rcases h : orderByDescFirst (fun s => s.resolution) (catalog.filter progressiveMp4)
      with - | bp
    · rw [get_best_streams_fallback_eq_none catalog h]
      simp
    · rw [get_best_streams_fallback_eq_some catalog bp h]
      split
      · split <;> simp
      · simp
  · rcases h : orderByDescFirst (fun s => s.resolution) (catalog.filter progressiveMp4)
      with - | bp
    · rw [get_best_streams_fallback_eq_none catalog h]
      intro _
      exact ⟨rfl, fun v hv => by cases hv⟩
    · have hbp_prog : bp.is_progressive = true := by
        have hp := (List.mem_filter.mp
          (orderByDescFirst_mem (fun s => s.resolution) _ bp h).1).2
        simp only [progressiveMp4, Bool.and_eq_true] at hp
        exact hp.1
      rw [get_best_streams_fallback_eq_some catalog bp h]
      split
      · split
        · intro hm
          cases hm
        · intro _
          exact ⟨rfl, fun w hw => by cases hw; exact hbp_prog⟩
      · intro _
        exact ⟨rfl, fun w hw => by cases hw; exact hbp_prog⟩

/-- C5 (witness): the amended statement at a concrete well-formed GUI state
("Best Available" selected, no stored stream maps) and the one-stream
progressive catalog. -/
theorem C5_witness :
    ((get_selected_streams ⟨"Best Available", "Default", [], none⟩
        [progMp4_1080]).audio.isSome = true →
      (get_selected_streams ⟨"Best Available", "Default", [], none⟩
        [progMp4_1080]).needs_merge = true) ∧
    ((get_selected_streams ⟨"Best Available", "Default", [], none⟩
        [progMp4_1080]).needs_merge = false →
      (get_selected_streams ⟨"Best Available", "Default", [], none⟩
        [progMp4_1080]).audio = none ∧
      ∀ v, (get_selected_streams ⟨"Best Available", "Default", [], none⟩
        [progMp4_1080]).video = some v → v.is_progressive = true) ∧
    ((get_best_streams_fallback [progMp4_1080]).needs_merge = true ↔
      (get_best_streams_fallback [progMp4_1080]).audio.isSome = true) ∧
    ((get_best_streams_fallback [progMp4_1080]).needs_merge = false →
      (get_best_streams_fallback [progMp4_1080]).audio = none ∧
      ∀ v, (get_best_streams_fallback [progMp4_1080]).video = some v →
        v.is_progressive = true) :=
  C5_selection_invariant ⟨"Best Available", "Default", [], none⟩ [progMp4_1080]
    (by simp)

end WampyTube
